import Mathlib

/-!
Shallow embedding of the `switch-exhaustiveness-check` rule from
`packages/eslint-plugin/src/rules/switch-exhaustiveness-check.ts`.

The external type checker is abstracted away: every expression arrives
already resolved to its static type (`getConstrainedTypeAtLocation` is the
external Type Resolver).  A `TsType` models a `ts.Type` handle: identity
comparison (the `id` surrogate plus the other observable fields), the
`isIntersection()` query, `getSymbol()?.escapedName`, `checker.typeToString`
and the `ESSymbolLike` type-flag query.  `requiresQuoting` (imported from
`../util` in the source) is kept abstract as a `String → Bool` parameter.
-/

namespace SwitchExhaustivenessCheck

/-- A resolved `ts.Type` handle as observed by the rule: `id` is the
identity surrogate (pointer identity of the checker's type object),
`symbolName` is `getSymbol()?.escapedName` (`none` when no symbol),
`display` is `checker.typeToString`, `essymbolLike` is
`tsutils.isTypeFlagSet(t, ts.TypeFlags.ESSymbolLike)`. -/
structure TsType where
  id : Nat
  isIntersection : Bool
  symbolName : Option String
  display : String
  essymbolLike : Bool
deriving DecidableEq, Repr

/-- The discriminant's resolved type: `isUnion()`, the flattened
`tsutils.unionTypeParts` (meaningful when `isUnion`), and
`getSymbol()?.escapedName`. -/
structure DiscriminantType where
  isUnion : Bool
  unionParts : List TsType
  symbolName : Option String
deriving DecidableEq, Repr

/-- A `SwitchCase` AST node: `test` is the resolved type of the test
expression, `none` when the clause is a `default` clause; `column` is
`loc.start.column`. -/
structure SwitchCase where
  test : Option TsType
  column : Nat
deriving DecidableEq, Repr

/-- A `SwitchStatement` AST node with its discriminant already resolved:
`discriminantNodeId` identifies the discriminant expression node (report
anchor), `column` is `node.loc.start.column`. -/
structure SwitchStatement where
  discriminantNodeId : Nat
  discriminantType : DiscriminantType
  cases : List SwitchCase
  column : Nat
deriving DecidableEq, Repr

/-- The edit produced by the fixer: `insertTextAfter(lastCase, text)` or
`replaceTextRange([openingBrace.range[0], closingBrace.range[1]], text)`. -/
inductive RuleFix where
  | insertAfterLastCase (text : String)
  | replaceBraceSpan (text : String)
deriving DecidableEq, Repr

/-- A `context.report` call: the anchor node, the message id, the
`missingBranches` message datum, and the suggested fix. -/
structure Report where
  messageId : String
  anchorNode : Nat
  missingBranches : String
  fix : RuleFix
deriving DecidableEq, Repr

/-- `' '.repeat(n)`. -/
def indentSpaces (n : Nat) : String :=
  String.mk (List.replicate n (Char.ofNat 32))

/-- JS `s.replace(/c/g, repl)` for a single-character global pattern. -/
def replaceChar (c : Char) (repl : String) (s : String) : String :=
  String.join (s.data.map (fun ch => if ch == c then repl else String.singleton ch))

/-- The single quote character. -/
def quoteChar : Char := Char.ofNat 39

/-- The newline character. -/
def nlChar : Char := Char.ofNat 10

/-- The carriage-return character. -/
def crChar : Char := Char.ofNat 13

/-- The generated wildcard clause
`default: { throw new Error('default case') }` (source line 78). -/
def defaultClauseText : String :=
  "default: \x7b throw new Error(\x27default case\x27) \x7d"

/-- Per-variant clause generation for one non-`null` missing branch type
(source lines 95–116): compute `caseTest`, rewrite it to
`symbolName['escapedBranchName']` when the discriminant symbol name is
truthy, the branch has a symbol name (possibly empty) and that name
requires quoting, then emit
`case <caseTest>: { throw new Error('<escapedErrorMessage>') }`. -/
def caseClause (rq : String → Bool) (symbolName : Option String)
    (missingBranchType : TsType) : String :=
  let missingBranchName := missingBranchType.symbolName
  let caseTest :=
    match symbolName, missingBranchName with
    | some s, some n =>
      if (!(s == "")) && rq n then
        let escapedBranchName :=
          replaceChar crChar "\\r"
            (replaceChar nlChar "\\n"
              (replaceChar quoteChar "\\\x27" n))
        s ++ "[\x27" ++ escapedBranchName ++ "\x27]"
      else
        missingBranchType.display
    | _, _ => missingBranchType.display
  let errorMessage := "Not implemented yet: " ++ caseTest ++ " case"
  let escapedErrorMessage := replaceChar quoteChar "\\\x27" errorMessage
  "case " ++ caseTest ++ ": \x7b throw new Error(\x27" ++ escapedErrorMessage ++ "\x27) \x7d"

/-- The `missingCases` accumulation loop of `fixSwitch` (source lines
75–117): a `none` entry is the `default` branch, an intersection-typed
entry is skipped, anything else yields a generated `case` clause. -/
def missingCases (rq : String → Bool) (symbolName : Option String) :
    List (Option TsType) → List String
  | [] => []
  | none :: rest => defaultClauseText :: missingCases rq symbolName rest
  | some missingBranchType :: rest =>
    if missingBranchType.isIntersection then
      missingCases rq symbolName rest
    else
      caseClause rq symbolName missingBranchType :: missingCases rq symbolName rest

/-- `fixSwitch` (source lines 61–141): indent each generated clause to the
last existing case's column (or the switch statement's column when there
are no cases), join with newlines, then either insert after the last case
or replace the brace span of an empty switch body. -/
def fixSwitch (rq : String → Bool) (node : SwitchStatement)
    (missingBranchTypes : List (Option TsType)) (symbolName : Option String) :
    RuleFix :=
  let lastCase := node.cases.getLast?
  let caseIndent :=
    match lastCase with
    | some c => indentSpaces c.column
    | none => indentSpaces node.column
  let fixString :=
    String.intercalate "\n"
      ((missingCases rq symbolName missingBranchTypes).map
        (fun code => caseIndent ++ code))
  match lastCase with
  | some _ => RuleFix.insertAfterLastCase ("\n" ++ fixString)
  | none =>
    RuleFix.replaceBraceSpan
      (String.intercalate "\n" ["\x7b", fixString, caseIndent ++ "\x7d"])

/-- The case-clause scan of the union path (source lines 153–162): walk the
clauses in order; on a `default` clause return `none` (early `return` of
`checkSwitchExhaustive`), otherwise collect each test's resolved type. -/
def collectCaseTypes : List SwitchCase → Option (List TsType)
  | [] => some []
  | switchCase :: rest =>
    match switchCase.test with
    | none => none
    | some t => (collectCaseTypes rest).map (fun ts => t :: ts)

/-- Message rendering of one missing branch (source lines 178–182):
`typeof <escapedName>` for an `ESSymbolLike` type (JS renders a missing
symbol as `undefined`), otherwise `checker.typeToString`. -/
def renderBranch (missingType : TsType) : String :=
  if missingType.essymbolLike then
    "typeof " ++ (missingType.symbolName.getD "undefined")
  else
    missingType.display

/-- `checkSwitchExhaustive` (source lines 143–222): the union path collects
the case types (early-returning on a `default` clause), filters the union
parts not covered by identity, and reports the missing branches; the
non-union path reports a missing `default` clause only when
`requireDefaultForNonUnion` is set and no clause is a wildcard. -/
def checkSwitchExhaustive (requireDefaultForNonUnion : Bool)
    (rq : String → Bool) (node : SwitchStatement) : Option Report :=
  let discriminantType := node.discriminantType
  let symbolName := discriminantType.symbolName
  if discriminantType.isUnion then
    match collectCaseTypes node.cases with
    | none => none
    | some caseTypes =>
      let missingBranchTypes :=
        discriminantType.unionParts.filter
          (fun unionType => decide (unionType ∉ caseTypes))
      if missingBranchTypes.isEmpty then
        none
      else
        some
          { messageId := "switchIsNotExhaustive"
            anchorNode := node.discriminantNodeId
            missingBranches :=
              String.intercalate " | " (missingBranchTypes.map renderBranch)
            fix := fixSwitch rq node (missingBranchTypes.map some) symbolName }
  else if requireDefaultForNonUnion then
    if node.cases.any (fun switchCase => switchCase.test.isNone) then
      none
    else
      some
        { messageId := "switchIsNotExhaustive"
          anchorNode := node.discriminantNodeId
          missingBranches := "default"
          fix := fixSwitch rq node [none] none }
  else
    none

/-- Stated from the claim's words (C9), for comparison with `caseClause`:
the case test is the variant's display string, except that when the
discriminant has a (nonempty) declared symbol name, the variant has a
declared name (possibly empty), and that name requires quoting to be a
valid key, the test is rewritten to
`<discriminantSymbolName>['<escapedVariantName>']`, escaping single
quotes, then newlines, then carriage returns, in that order. -/
def claimCaseTest (rq : String → Bool) (symbolName : Option String)
    (t : TsType) : String :=
  match symbolName, t.symbolName with
  | some s, some n =>
    if (!(s == "")) && rq n then
      s ++ "[\x27" ++
        replaceChar crChar "\\r"
          (replaceChar nlChar "\\n"
            (replaceChar quoteChar "\\\x27" n)) ++ "\x27]"
    else
      t.display
  | _, _ => t.display

/-! ### Concrete fixtures used by witness instantiations -/

/-- The string-literal type `"a"` of a union member. -/
def ta : TsType := { id := 0, isIntersection := false, symbolName := some "a", display := "\"a\"", essymbolLike := false }

/-- The string-literal type `"b"` of a union member. -/
def tb : TsType := { id := 1, isIntersection := false, symbolName := some "b", display := "\"b\"", essymbolLike := false }

/-- The string-literal type `"c"` of a union member. -/
def tc : TsType := { id := 2, isIntersection := false, symbolName := some "c", display := "\"c\"", essymbolLike := false }

/-- An intersection-typed union member. -/
def tInter : TsType := { id := 3, isIntersection := true, symbolName := none, display := "string & A", essymbolLike := false }

/-- A case clause whose test resolves to `ta`. -/
def caseA : SwitchCase := { test := some ta, column := 4 }

/-- A case clause whose test resolves to `tb`. -/
def caseB : SwitchCase := { test := some tb, column := 4 }

/-- A `default` clause. -/
def caseWildcard : SwitchCase := { test := none, column := 4 }

/-- A switch on the union `"a" | "b" | "c"` with clauses for `"a"`, `"b"`. -/
def nodeABC : SwitchStatement :=
  { discriminantNodeId := 7
    discriminantType := { isUnion := true, unionParts := [ta, tb, tc], symbolName := none }
    cases := [caseA, caseB]
    column := 2 }

/-- A switch on the union `"a" | "b" | "c"` with a `default` clause between
two case clauses. -/
def nodeWithWildcard : SwitchStatement :=
  { discriminantNodeId := 8
    discriminantType := { isUnion := true, unionParts := [ta, tb, tc], symbolName := none }
    cases := [caseA, caseWildcard, caseB]
    column := 2 }

/-- A switch on a non-union type with one non-wildcard clause. -/
def nodeNonUnion : SwitchStatement :=
  { discriminantNodeId := 9
    discriminantType := { isUnion := false, unionParts := [], symbolName := some "N" }
    cases := [caseA]
    column := 2 }

/-- A switch on the union `"a" | (string & A)` covering only `"a"`, so the
only missing variant is intersection-typed. -/
def nodeInterOnly : SwitchStatement :=
  { discriminantNodeId := 10
    discriminantType := { isUnion := true, unionParts := [ta, tInter], symbolName := none }
    cases := [caseA]
    column := 2 }

/-- A `requiresQuoting` instantiation that never requires quoting. -/
def rqNever : String → Bool := fun _ => false

/-- `nodeABC` with its two case clauses in the opposite source order. -/
def nodeABCSwapped : SwitchStatement :=
  { nodeABC with cases := [caseB, caseA] }

/-- A unique-symbol (`ESSymbolLike`) union member named `mySym`. -/
def tSym : TsType := { id := 4, isIntersection := false, symbolName := some "mySym", display := "unique symbol", essymbolLike := true }

/-- A switch on the union `"a" | typeof mySym` covering only `"a"`. -/
def nodeSym : SwitchStatement :=
  { discriminantNodeId := 11
    discriminantType := { isUnion := true, unionParts := [ta, tSym], symbolName := none }
    cases := [caseA]
    column := 2 }

/-- A switch on the union `"a" | "b"` with no clauses at all. -/
def nodeEmpty : SwitchStatement :=
  { discriminantNodeId := 12
    discriminantType := { isUnion := true, unionParts := [ta, tb], symbolName := none }
    cases := []
    column := 2 }

/-- A union member whose declared name `my-key` is not a valid identifier
and so requires quoting as a bracket-access key. -/
def tQuoted : TsType := { id := 5, isIntersection := false, symbolName := some "my-key", display := "E.myKey", essymbolLike := false }

/-- A `requiresQuoting` instantiation marking exactly `my-key` as needing
quoting. -/
def rqHyphen : String → Bool := fun n => n == "my-key"

/-! ### Helper lemmas shared by the claim theorems -/

theorem collectCaseTypes_eq_none_iff (cases : List SwitchCase) :
    collectCaseTypes cases = none ↔ ∃ c ∈ cases, c.test = none := by
  induction cases with
  | nil => simp [collectCaseTypes]
  | cons c rest ih =>
    cases htest : c.test with
    | none => simp [collectCaseTypes, htest]
    | some t =>
      simp only [collectCaseTypes, htest, List.mem_cons]
      constructor
      · intro h
        rcases Option.map_eq_none'.mp h with hrest
        rcases ih.mp hrest with ⟨d, hd, hdt⟩
        exact ⟨d, Or.inr hd, hdt⟩
      · rintro ⟨d, hd | hd, hdt⟩
        · rw [hd, htest] at hdt; cases hdt
        · exact Option.map_eq_none'.mpr (ih.mpr ⟨d, hd, hdt⟩)

theorem collectCaseTypes_eq_filterMap (cases : List SwitchCase)
    (caseTypes : List TsType) (h : collectCaseTypes cases = some caseTypes) :
    caseTypes = cases.filterMap (fun c => c.test) := by
  induction cases generalizing caseTypes with
  | nil =>
    simp only [collectCaseTypes, Option.some.injEq] at h
    simp [← h]
  | cons c rest ih =>
    cases htest : c.test with
    | none => simp [collectCaseTypes, htest] at h
    | some t =>
      simp only [collectCaseTypes, htest] at h
      cases hrest : collectCaseTypes rest with
      | none => rw [hrest] at h; cases h
      | some ts =>
        rw [hrest] at h
        simp only [Option.map_some', Option.some.injEq] at h
        rw [List.filterMap_cons, htest, ← h, ih ts hrest]

theorem collectCaseTypes_append (cases : List SwitchCase)
    (caseTypes : List TsType) (c : SwitchCase) (t : TsType)
    (h : collectCaseTypes cases = some caseTypes) (ht : c.test = some t) :
    collectCaseTypes (cases ++ [c]) = some (caseTypes ++ [t]) := by
  induction cases generalizing caseTypes with
  | nil =>
    simp only [collectCaseTypes, Option.some.injEq] at h
    simp [collectCaseTypes, ht, ← h]
  | cons d rest ih =>
    cases htest : d.test with
    | none => simp [collectCaseTypes, htest] at h
    | some s =>
      simp only [collectCaseTypes, htest] at h
      cases hrest : collectCaseTypes rest with
      | none => rw [hrest] at h; cases h
      | some ts =>
        rw [hrest] at h
        simp only [Option.map_some', Option.some.injEq] at h
        subst h
        simp only [List.cons_append, collectCaseTypes, htest]
        rw [show collectCaseTypes (rest.append [c]) = some (ts ++ [t]) from ih ts hrest]
        rfl

theorem union_check_eq (requireDefaultForNonUnion : Bool) (rq : String → Bool)
    (node : SwitchStatement) (caseTypes : List TsType)
    (hu : node.discriminantType.isUnion = true)
    (hc : collectCaseTypes node.cases = some caseTypes) :
    checkSwitchExhaustive requireDefaultForNonUnion rq node =
      (if (node.discriminantType.unionParts.filter
            (fun unionType => decide (unionType ∉ caseTypes))).isEmpty then
        none
      else
        some
          { messageId := "switchIsNotExhaustive"
            anchorNode := node.discriminantNodeId
            missingBranches := String.intercalate " | "
              ((node.discriminantType.unionParts.filter
                (fun unionType => decide (unionType ∉ caseTypes))).map renderBranch)
            fix := fixSwitch rq node
              ((node.discriminantType.unionParts.filter
                (fun unionType => decide (unionType ∉ caseTypes))).map some)
              node.discriminantType.symbolName }) := by
  simp only [checkSwitchExhaustive, hu, hc, if_true]

theorem filter_missing_eq_nil_iff (parts : List TsType) (caseTypes : List TsType) :
    parts.filter (fun unionType => decide (unionType ∉ caseTypes)) = [] ↔
      ∀ u ∈ parts, u ∈ caseTypes := by
  rw [List.filter_eq_nil_iff]
  simp

theorem missingCases_map_some (rq : String → Bool) (symbolName : Option String)
    (ts : List TsType) :
    missingCases rq symbolName (ts.map some) =
      (ts.filter (fun t => !t.isIntersection)).map (caseClause rq symbolName) := by
  induction ts with
  | nil => rfl
  | cons t rest ih =>
    cases hint : t.isIntersection with
    | true => simp [missingCases, List.filter_cons, hint, ih]
    | false => simp [missingCases, List.filter_cons, hint, ih]

/-! ### Claim theorems -/

/-- C1: for a switch on a union type with no default clause, no report is
emitted iff every union variant is covered by some case clause's resolved
type; otherwise a report is emitted whose missing set is exactly
`AllVariants − CoveredVariants`. -/
theorem union_exhaustive_iff_all_covered
    (requireDefaultForNonUnion : Bool) (rq : String → Bool)
    (node : SwitchStatement) (caseTypes : List TsType)
    (hu : node.discriminantType.isUnion = true)
    (hc : collectCaseTypes node.cases = some caseTypes) :
    (checkSwitchExhaustive requireDefaultForNonUnion rq node = none ↔
      ∀ u ∈ node.discriminantType.unionParts, u ∈ caseTypes) ∧
    ((¬ ∀ u ∈ node.discriminantType.unionParts, u ∈ caseTypes) →
      checkSwitchExhaustive requireDefaultForNonUnion rq node =
        some
          { messageId := "switchIsNotExhaustive"
            anchorNode := node.discriminantNodeId
            missingBranches := String.intercalate " | "
              ((node.discriminantType.unionParts.filter
                (fun unionType => decide (unionType ∉ caseTypes))).map renderBranch)
            fix := fixSwitch rq node
              ((node.discriminantType.unionParts.filter
                (fun unionType => decide (unionType ∉ caseTypes))).map some)
              node.discriminantType.symbolName }) := by
  rw [union_check_eq requireDefaultForNonUnion rq node caseTypes hu hc]
  by_cases hall : ∀ u ∈ node.discriminantType.unionParts, u ∈ caseTypes
  · rw [(filter_missing_eq_nil_iff _ _).mpr hall]
    exact ⟨⟨fun _ => hall, fun _ => rfl⟩, fun h => absurd hall h⟩
  · have hne : ¬ (node.discriminantType.unionParts.filter
        (fun unionType => decide (unionType ∉ caseTypes))).isEmpty = true := by
      rw [List.isEmpty_iff]
      exact fun h => hall ((filter_missing_eq_nil_iff _ _).mp h)
    rw [if_neg hne]
    exact ⟨⟨fun h => Option.noConfusion h, fun h => absurd h hall⟩, fun _ => rfl⟩

/-- C1 witness: the switch on `"a" | "b" | "c"` covering only `"a"` and
`"b"` is reported. -/
theorem union_exhaustive_iff_all_covered_witness :
    checkSwitchExhaustive false rqNever nodeABC ≠ none := by
  intro h
  have h2 := (union_exhaustive_iff_all_covered false rqNever nodeABC [ta, tb]
    rfl rfl).1.mp h
  exact absurd (h2 tc (by decide)) (by decide)

/-- C2: a default clause anywhere in the switch makes the analysis emit
nothing, for any option setting and any other clauses; in the union path
the clause scan short-circuits at the default clause, returning the same
result whatever clauses follow it. -/
theorem default_clause_always_exhaustive
    (requireDefaultForNonUnion : Bool) (rq : String → Bool) :
    (∀ node : SwitchStatement, (∃ c ∈ node.cases, c.test = none) →
        checkSwitchExhaustive requireDefaultForNonUnion rq node = none) ∧
    (∀ (pre post : List SwitchCase) (d : SwitchCase), d.test = none →
        collectCaseTypes (pre ++ d :: post) = none) := by
  constructor
  · rintro node ⟨c, hmem, htest⟩
    by_cases hu : node.discriminantType.isUnion = true
    · have hnone : collectCaseTypes node.cases = none :=
        (collectCaseTypes_eq_none_iff _).mpr ⟨c, hmem, htest⟩
      simp [checkSwitchExhaustive, hu, hnone]
    · have hany : node.cases.any (fun switchCase => switchCase.test.isNone) = true :=
        List.any_eq_true.mpr ⟨c, hmem, by rw [htest]; rfl⟩
      simp [checkSwitchExhaustive, hu, hany]
  · intro pre post d hd
    exact (collectCaseTypes_eq_none_iff _).mpr ⟨d, by simp, hd⟩

/-- C2 witness: the switch on `"a" | "b" | "c"` with a default clause in
the middle of its clause list is not reported. -/
theorem default_clause_always_exhaustive_witness :
    checkSwitchExhaustive true rqNever nodeWithWildcard = none :=
  (default_clause_always_exhaustive true rqNever).1 nodeWithWildcard
    ⟨caseWildcard, by decide, rfl⟩

/-- C3: the missing set is an ordered sublist of the union's declaration
order, and permuting the case clauses of the switch leaves it unchanged. -/
theorem missing_set_declaration_order
    (node node2 : SwitchStatement) (caseTypes caseTypes2 : List TsType)
    (hd : node2.discriminantType = node.discriminantType)
    (hperm : node2.cases.Perm node.cases)
    (hc : collectCaseTypes node.cases = some caseTypes)
    (hc2 : collectCaseTypes node2.cases = some caseTypes2) :
    List.Sublist
      (node.discriminantType.unionParts.filter
        (fun unionType => decide (unionType ∉ caseTypes)))
      node.discriminantType.unionParts ∧
    node2.discriminantType.unionParts.filter
        (fun unionType => decide (unionType ∉ caseTypes2)) =
      node.discriminantType.unionParts.filter
        (fun unionType => decide (unionType ∉ caseTypes)) := by
  constructor
  · exact List.filter_sublist _
  · rw [hd]
    apply List.filter_congr
    intro u _
    have e1 := collectCaseTypes_eq_filterMap _ _ hc
    have e2 := collectCaseTypes_eq_filterMap _ _ hc2
    have hp : caseTypes2.Perm caseTypes := by
      rw [e1, e2]
      exact List.Perm.filterMap _ hperm
    exact decide_eq_decide.mpr (not_congr hp.mem_iff)

/-- C3 witness: swapping the two clauses of the `"a" | "b" | "c"` switch
leaves the missing set unchanged. -/
theorem missing_set_declaration_order_witness :
    nodeABCSwapped.discriminantType.unionParts.filter
        (fun unionType => decide (unionType ∉ [tb, ta])) =
      nodeABC.discriminantType.unionParts.filter
        (fun unionType => decide (unionType ∉ [ta, tb])) :=
  (missing_set_declaration_order nodeABC nodeABCSwapped [ta, tb] [tb, ta] rfl
    (List.Perm.swap caseA caseB []) rfl rfl).2

/-- C4: coverage is keyed by type identity and is idempotent: appending a
clause whose test resolves to an already covered type leaves the missing
set unchanged, and an appended clause only affects the variant equal (by
identity) to its resolved type. -/
theorem duplicate_coverage_idempotent
    (node : SwitchStatement) (caseTypes : List TsType) (c : SwitchCase) (t : TsType)
    (hc : collectCaseTypes node.cases = some caseTypes)
    (ht : c.test = some t) :
    collectCaseTypes (node.cases ++ [c]) = some (caseTypes ++ [t]) ∧
    (t ∈ caseTypes →
      node.discriminantType.unionParts.filter
          (fun unionType => decide (unionType ∉ caseTypes ++ [t])) =
        node.discriminantType.unionParts.filter
          (fun unionType => decide (unionType ∉ caseTypes))) ∧
    (∀ u : TsType, u ≠ t →
      decide (u ∉ caseTypes ++ [t]) = decide (u ∉ caseTypes)) := by
  refine ⟨collectCaseTypes_append _ _ _ _ hc ht, ?_, ?_⟩
  · intro hmem
    apply List.filter_congr
    intro u _
    rw [decide_eq_decide]
    constructor
    · intro h hu
      exact h (List.mem_append_left _ hu)
    · intro h hu
      rcases List.mem_append.mp hu with h1 | h1
      · exact h h1
      · rw [List.mem_singleton] at h1
        subst h1
        exact h hmem
  · intro u hne
    rw [decide_eq_decide]
    simp [List.mem_append, hne]

/-- C4 witness: appending a duplicate clause for `"a"` to the
`"a" | "b" | "c"` switch leaves the missing set unchanged. -/
theorem duplicate_coverage_idempotent_witness :
    collectCaseTypes (nodeABC.cases ++ [caseA]) = some ([ta, tb] ++ [ta]) ∧
    nodeABC.discriminantType.unionParts.filter
        (fun unionType => decide (unionType ∉ [ta, tb] ++ [ta])) =
      nodeABC.discriminantType.unionParts.filter
        (fun unionType => decide (unionType ∉ [ta, tb])) :=
  ⟨(duplicate_coverage_idempotent nodeABC [ta, tb] caseA ta rfl rfl).1,
   (duplicate_coverage_idempotent nodeABC [ta, tb] caseA ta rfl rfl).2.1
     (by decide)⟩

/-- C5: for a non-union discriminant: with the option disabled nothing is
reported; with it enabled a report whose message datum is `default` is
emitted iff no clause is a wildcard; the generated clause is
`default: { throw new Error('default case') }`, appended after the last
existing clause. -/
theorem non_union_require_default
    (rq : String → Bool) (node : SwitchStatement)
    (hnu : node.discriminantType.isUnion = false) :
    (checkSwitchExhaustive false rq node = none) ∧
    ((∃ c ∈ node.cases, c.test = none) →
        checkSwitchExhaustive true rq node = none) ∧
    ((¬ ∃ c ∈ node.cases, c.test = none) →
        checkSwitchExhaustive true rq node =
          some
            { messageId := "switchIsNotExhaustive"
              anchorNode := node.discriminantNodeId
              missingBranches := "default"
              fix := fixSwitch rq node [none] none }) ∧
    (missingCases rq none [none] = [defaultClauseText]) ∧
    (∀ c, node.cases.getLast? = some c →
        fixSwitch rq node [none] none =
          RuleFix.insertAfterLastCase
            ("\n" ++ (indentSpaces c.column ++ defaultClauseText))) := by
  refine ⟨?_, ?_, ?_, rfl, ?_⟩
  · simp [checkSwitchExhaustive, hnu]
  · rintro ⟨c, hmem, htest⟩
    have hany : node.cases.any (fun switchCase => switchCase.test.isNone) = true :=
      List.any_eq_true.mpr ⟨c, hmem, by rw [htest]; rfl⟩
    simp [checkSwitchExhaustive, hnu, hany]
  · intro hnone
    have hany : node.cases.any (fun switchCase => switchCase.test.isNone) = false := by
      rw [List.any_eq_false]
      intro c hmem hcontra
      exact hnone ⟨c, hmem, Option.isNone_iff_eq_none.mp hcontra⟩
    simp [checkSwitchExhaustive, hnu, hany]
  · intro c hlast
    simp only [fixSwitch, hlast]
    rfl

/-- C5 witness: a non-union switch with one non-wildcard clause is
reported with message datum `default` when the option is on, and its fix
appends the default clause after the last clause. -/
theorem non_union_require_default_witness :
    checkSwitchExhaustive true rqNever nodeNonUnion =
      some
        { messageId := "switchIsNotExhaustive"
          anchorNode := nodeNonUnion.discriminantNodeId
          missingBranches := "default"
          fix := fixSwitch rqNever nodeNonUnion [none] none } ∧
    fixSwitch rqNever nodeNonUnion [none] none =
      RuleFix.insertAfterLastCase
        ("\n" ++ (indentSpaces caseA.column ++ defaultClauseText)) :=
  ⟨(non_union_require_default rqNever nodeNonUnion rfl).2.2.1 (by decide),
   (non_union_require_default rqNever nodeNonUnion rfl).2.2.2.2 caseA rfl⟩

/-- C6: an intersection-typed missing variant appears in the report's
message listing but yields no generated clause: the fix clauses are exactly
those of the non-intersection missing variants, while the message renders
every missing variant. -/
theorem intersection_listed_not_fixed
    (rq : String → Bool) (symbolName : Option String) :
    (∀ ts : List TsType,
      missingCases rq symbolName (ts.map some) =
        (ts.filter (fun t => !t.isIntersection)).map (caseClause rq symbolName)) ∧
    (∀ (requireDefaultForNonUnion : Bool) (node : SwitchStatement)
        (caseTypes : List TsType) (r : Report),
      node.discriminantType.isUnion = true →
      collectCaseTypes node.cases = some caseTypes →
      checkSwitchExhaustive requireDefaultForNonUnion rq node = some r →
      r.missingBranches = String.intercalate " | "
        ((node.discriminantType.unionParts.filter
          (fun unionType => decide (unionType ∉ caseTypes))).map renderBranch)) := by
  constructor
  · exact missingCases_map_some rq symbolName
  · intro requireDefaultForNonUnion node caseTypes r hu hc hr
    rw [union_check_eq requireDefaultForNonUnion rq node caseTypes hu hc] at hr
    by_cases hE : (node.discriminantType.unionParts.filter
        (fun unionType => decide (unionType ∉ caseTypes))).isEmpty = true
    · rw [if_pos hE] at hr
      cases hr
    · rw [if_neg hE] at hr
      cases hr
      rfl

/-- C6 witness: on the union `"a" | (string & A)` with only `"a"` covered,
the intersection variant is listed in the message yet generates no clause. -/
theorem intersection_listed_not_fixed_witness :
    (missingCases rqNever none ([tInter, tb].map some) =
      ([tInter, tb].filter (fun t => !t.isIntersection)).map
        (caseClause rqNever none)) ∧
    Report.missingBranches
        { messageId := "switchIsNotExhaustive"
          anchorNode := 10
          missingBranches := "string & A"
          fix := RuleFix.insertAfterLastCase "\n" } =
      String.intercalate " | "
        ((nodeInterOnly.discriminantType.unionParts.filter
          (fun unionType => decide (unionType ∉ [ta]))).map renderBranch) :=
  ⟨(intersection_listed_not_fixed rqNever none).1 [tInter, tb],
   (intersection_listed_not_fixed rqNever none).2 false nodeInterOnly [ta]
     { messageId := "switchIsNotExhaustive"
       anchorNode := 10
       missingBranches := "string & A"
       fix := RuleFix.insertAfterLastCase "\n" }
     rfl rfl rfl⟩

/-- C7: a union-path report is anchored at the discriminant node and its
message joins the rendered missing variants with `" | "`, rendering a
symbol-like variant as `typeof <declaredName>` and every other variant as
its display string. -/
theorem report_message_rendering
    (requireDefaultForNonUnion : Bool) (rq : String → Bool)
    (node : SwitchStatement) (caseTypes : List TsType) (r : Report)
    (hu : node.discriminantType.isUnion = true)
    (hc : collectCaseTypes node.cases = some caseTypes)
    (hr : checkSwitchExhaustive requireDefaultForNonUnion rq node = some r) :
    r.anchorNode = node.discriminantNodeId ∧
    r.missingBranches = String.intercalate " | "
      ((node.discriminantType.unionParts.filter
        (fun unionType => decide (unionType ∉ caseTypes))).map renderBranch) ∧
    (∀ (t : TsType) (n : String), t.essymbolLike = true → t.symbolName = some n →
      renderBranch t = "typeof " ++ n) ∧
    (∀ t : TsType, t.essymbolLike = false → renderBranch t = t.display) := by
  rw [union_check_eq requireDefaultForNonUnion rq node caseTypes hu hc] at hr
  by_cases hE : (node.discriminantType.unionParts.filter
      (fun unionType => decide (unionType ∉ caseTypes))).isEmpty = true
  · rw [if_pos hE] at hr
    cases hr
  · rw [if_neg hE] at hr
    cases hr
    refine ⟨rfl, rfl, ?_, ?_⟩
    · intro t n hflag hname
      simp [renderBranch, hflag, hname]
    · intro t hflag
      simp [renderBranch, hflag]

/-- C7 witness: the switch on `"a" | typeof mySym` covering only `"a"` is
reported at its discriminant node with message `typeof mySym`. -/
theorem report_message_rendering_witness :
    Report.anchorNode
        { messageId := "switchIsNotExhaustive"
          anchorNode := 11
          missingBranches := "typeof mySym"
          fix := fixSwitch rqNever nodeSym [some tSym] none } =
      nodeSym.discriminantNodeId ∧
    renderBranch tSym = "typeof " ++ "mySym" := by
  have h := report_message_rendering false rqNever nodeSym [ta]
    { messageId := "switchIsNotExhaustive"
      anchorNode := 11
      missingBranches := "typeof mySym"
      fix := fixSwitch rqNever nodeSym [some tSym] none }
    rfl rfl rfl
  exact ⟨h.1, h.2.2.1 tSym "mySym" rfl rfl⟩

/-- C8: when the switch has at least one clause the fix inserts the
generated clauses after the last clause, each line indented to that
clause's start column; when it has no clauses the fix replaces the brace
span with a brace-delimited block whose closing brace is indented to the
switch's own start column. -/
theorem fix_placement
    (rq : String → Bool) (node : SwitchStatement)
    (missingBranchTypes : List (Option TsType)) (symbolName : Option String) :
    (∀ c, node.cases.getLast? = some c →
        fixSwitch rq node missingBranchTypes symbolName =
          RuleFix.insertAfterLastCase
            ("\n" ++ String.intercalate "\n"
              ((missingCases rq symbolName missingBranchTypes).map
                (fun code => indentSpaces c.column ++ code)))) ∧
    (node.cases = [] →
        fixSwitch rq node missingBranchTypes symbolName =
          RuleFix.replaceBraceSpan
            (String.intercalate "\n"
              ["\x7b",
               String.intercalate "\n"
                 ((missingCases rq symbolName missingBranchTypes).map
                   (fun code => indentSpaces node.column ++ code)),
               indentSpaces node.column ++ "\x7d"])) := by
  constructor
  · intro c hlast
    simp only [fixSwitch, hlast]
  · intro hnil
    have hlast : node.cases.getLast? = none := by
      rw [hnil]
      rfl
    simp only [fixSwitch, hlast]

/-- C8 witness: the fix for the two-clause switch inserts after its last
clause at that clause's column, and the fix for the clauseless switch
replaces the brace span with a block closed at the switch's column. -/
theorem fix_placement_witness :
    fixSwitch rqNever nodeABC [some tc] none =
      RuleFix.insertAfterLastCase
        ("\n" ++ String.intercalate "\n"
          ((missingCases rqNever none [some tc]).map
            (fun code => indentSpaces caseB.column ++ code))) ∧
    fixSwitch rqNever nodeEmpty [some tc] none =
      RuleFix.replaceBraceSpan
        (String.intercalate "\n"
          ["\x7b",
           String.intercalate "\n"
             ((missingCases rqNever none [some tc]).map
               (fun code => indentSpaces nodeEmpty.column ++ code)),
           indentSpaces nodeEmpty.column ++ "\x7d"]) :=
  ⟨(fix_placement rqNever nodeABC [some tc] none).1 caseB rfl,
   (fix_placement rqNever nodeEmpty [some tc] none).2 rfl⟩

/-- C9 counterexample: with discriminant symbol `S` and a variant named
`my-key` that requires quoting, the case test is `S['my-key']` but the
emitted clause is not the claimed
`case <caseTest>: { throw new Error('Not implemented yet: <caseTest> case') }`
with the test inserted verbatim: the single quotes inside the error
message are escaped. -/
theorem case_clause_template_counterexample :
    claimCaseTest rqHyphen (some "S") tQuoted = "S[\x27my-key\x27]" ∧
    caseClause rqHyphen (some "S") tQuoted ≠
      "case S[\x27my-key\x27]: \x7b throw new Error(\x27Not implemented yet: S[\x27my-key\x27] case\x27) \x7d" := by
  constructor
  · rfl
  · decide

/-- C9 amended: the case test is computed exactly as the claim states
(`claimCaseTest`), and the emitted clause is
`case <caseTest>: { throw new Error('<m>') }` where `m` is
`Not implemented yet: <caseTest> case` with every single quote escaped
as a backslash-quote pair. -/
theorem case_clause_generation (rq : String → Bool)
    (symbolName : Option String) (t : TsType) :
    caseClause rq symbolName t =
      "case " ++ claimCaseTest rq symbolName t ++
        ": \x7b throw new Error(\x27" ++
        replaceChar quoteChar "\\\x27"
          ("Not implemented yet: " ++ claimCaseTest rq symbolName t ++ " case") ++
        "\x27) \x7d" := by
  cases symbolName with
  | none => rfl
  | some s =>
    cases ht : t.symbolName with
    | none => simp [caseClause, claimCaseTest, ht]
    | some n =>
      by_cases hq : ((!(s == "")) && rq n) = true
      · simp [caseClause, claimCaseTest, ht, hq]
      · simp [caseClause, claimCaseTest, ht, hq]

/-- C10: when every missing variant is intersection-typed and the switch
has at least one clause, the report is still emitted, listing those
variants in its message, but the suggested fix inserts a single newline
and no clause text. -/
theorem all_intersection_fix_is_newline
    (requireDefaultForNonUnion : Bool) (rq : String → Bool)
    (node : SwitchStatement) (caseTypes : List TsType) (c : SwitchCase)
    (hu : node.discriminantType.isUnion = true)
    (hc : collectCaseTypes node.cases = some caseTypes)
    (hlast : node.cases.getLast? = some c)
    (hne : node.discriminantType.unionParts.filter
        (fun unionType => decide (unionType ∉ caseTypes)) ≠ [])
    (hint : ∀ t ∈ node.discriminantType.unionParts.filter
        (fun unionType => decide (unionType ∉ caseTypes)),
      t.isIntersection = true) :
    checkSwitchExhaustive requireDefaultForNonUnion rq node =
      some
        { messageId := "switchIsNotExhaustive"
          anchorNode := node.discriminantNodeId
          missingBranches := String.intercalate " | "
            ((node.discriminantType.unionParts.filter
              (fun unionType => decide (unionType ∉ caseTypes))).map renderBranch)
          fix := RuleFix.insertAfterLastCase "\n" } := by
  rw [union_check_eq requireDefaultForNonUnion rq node caseTypes hu hc]
  have hE : ¬ (node.discriminantType.unionParts.filter
      (fun unionType => decide (unionType ∉ caseTypes))).isEmpty = true := by
    rw [List.isEmpty_iff]
    exact hne
  have hnilf : (node.discriminantType.unionParts.filter
      (fun unionType => decide (unionType ∉ caseTypes))).filter
        (fun t => !t.isIntersection) = [] := by
    rw [List.filter_eq_nil_iff]
    intro t htmem
    rw [hint t htmem]
    simp
  have hfix : fixSwitch rq node
      ((node.discriminantType.unionParts.filter
        (fun unionType => decide (unionType ∉ caseTypes))).map some)
      node.discriminantType.symbolName = RuleFix.insertAfterLastCase "\n" := by
    simp only [fixSwitch, hlast, missingCases_map_some, hnilf, List.map_nil]
    simp [String.intercalate]
  rw [if_neg hE, hfix]

/-- C10 witness: on the union `"a" | (string & A)` with only `"a"`
covered, the report lists `string & A` and its fix inserts exactly one
newline. -/
theorem all_intersection_fix_is_newline_witness :
    checkSwitchExhaustive false rqNever nodeInterOnly =
      some
        { messageId := "switchIsNotExhaustive"
          anchorNode := nodeInterOnly.discriminantNodeId
          missingBranches := String.intercalate " | "
            ((nodeInterOnly.discriminantType.unionParts.filter
              (fun unionType => decide (unionType ∉ [ta]))).map renderBranch)
          fix := RuleFix.insertAfterLastCase "\n" } :=
  all_intersection_fix_is_newline false rqNever nodeInterOnly [ta] caseA
    rfl rfl rfl (by decide) (by decide)

end SwitchExhaustivenessCheck
